import Mathlib

/-!
Verification development for the Wispen retrieval/indexing core.

The definitions below are shallow embeddings of the Python source:
  - `OpenSearchManager.search` and `OpenSearchManager.delete_document`
    (src/backend/opensearch_client.py),
  - `BookshelfRAG.extract_text`, `BookshelfRAG.search` and its legacy
    fallback scan (src/chatbot_enhanced.py),
  - the chunking loop of `sync_data` (src/backend/sync_firebase_opensearch.py),
  - a small-step concurrency model of the check-then-spawn logic that
    decides whether a background extraction worker is started.

Machine strings are modelled as Lean `String`, page texts as `List String`
(one entry per PDF page), and exceptions as explicit `Option`/outcome values.
-/

/-! ### Generic helpers (Python string/loop idioms) -/

/-- Bool test that `small` is a prefix of `big` (on character lists). -/
def charsPrefix : List Char → List Char → Bool
  | [], _ => true
  | _ :: _, [] => false
  | a :: as, b :: bs => a == b && charsPrefix as bs

/-- Bool test that `needle` occurs inside `hay` (Python `needle in hay`). -/
def charsContains : List Char → List Char → Bool
  | [], n => n.isEmpty
  | h :: t, n => charsPrefix n (h :: t) || charsContains t n

/-- Python substring test `needle in hay` on strings. -/
def strContains (hay needle : String) : Bool :=
  charsContains hay.data needle.data

/-- Python `not s.strip()`: true when the string is all whitespace, i.e.
stripping it leaves the empty (falsy) string. -/
def strBlank (s : String) : Bool :=
  s.data.all Char.isWhitespace

/-- Python `s.lower()` (ASCII case folding, character by character). -/
def strLower (s : String) : String :=
  String.mk (s.data.map Char.toLower)

/-- Python `s.endswith(suffix)`. -/
def strEndsWith (s suffix : String) : Bool :=
  charsPrefix suffix.data.reverse s.data.reverse

/-- Python `range(0, stop, step)` for `step > 0`. -/
def rangeStep (stop step : Nat) : List Nat :=
  (List.range ((stop + step - 1) / step)).map (· * step)

/-- Stable insertion of `x` into `l`, keeping larger keys first. -/
def insertDesc {α : Type} (key : α → Int) (x : α) : List α → List α
  | [] => [x]
  | y :: ys => if key y < key x then x :: y :: ys else y :: insertDesc key x ys

/-- Stable sort by descending key (models Python `list.sort(reverse=True)`). -/
def sortDesc {α : Type} (key : α → Int) : List α → List α
  | [] => []
  | x :: xs => insertDesc key x (sortDesc key xs)

/-! ### Chunking in `sync_data` (src/backend/sync_firebase_opensearch.py, lines 96-205)

A PDF document is the list of its page texts.  `sliceText pages lo hi`
is the text the sync loop builds for pages `[lo, hi)`: every page text is
appended followed by a newline, exactly as in
`chunk_text += reader.pages[page_idx].extract_text() + "\n"`. -/

/-- One indexed chunk document, with the fields `sync_data` writes. -/
structure SyncChunk where
  user_id : String
  book_id : String
  chunk_id : String
  title : String
  content : String
  page_start : Nat
  page_end : Nat
  timestamp : String
  storage_url : String
  file_type : String
deriving DecidableEq, Repr

/-- Concatenated text of pages `[lo, hi)`, each page followed by a newline. -/
def sliceText (pages : List String) (lo hi : Nat) : String :=
  ((pages.drop lo).take (hi - lo)).foldl (fun acc p => acc ++ p ++ "\n") ""

/-- The sliding-window page-chunk loop of `sync_data` (lines 126-155).
`starts` is `range(0, total_pages, STRIDE)` and `num` the running
`chunk_num` counter; a chunk is emitted only when the stripped slice text
is non-empty (`if chunk_text.strip():`). -/
def pageChunksGo (docId uid title ft surl ts : String) (pages : List String) :
    List Nat → Nat → List SyncChunk
  | [], _ => []
  | s :: rest, num =>
    let e := min (s + 5) pages.length
    let t := sliceText pages s e
    if !strBlank t then
      { user_id := uid
        book_id := docId
        chunk_id := docId ++ "_chunk_" ++ toString num
        title := title ++ " (pages " ++ toString (s + 1) ++ "-" ++ toString e ++ ")"
        content := t
        page_start := s + 1
        page_end := e
        timestamp := ts
        storage_url := surl
        file_type := ft } :: pageChunksGo docId uid title ft surl ts pages rest (num + 1)
    else pageChunksGo docId uid title ft surl ts pages rest num

/-- The synthetic table-of-contents chunk of `sync_data` (lines 157-178). -/
def tocChunk (docId uid title surl ts : String) (pages : List String) : SyncChunk :=
  let tocEnd := min 15 pages.length
  { user_id := uid
    book_id := docId
    chunk_id := docId ++ "_toc"
    title := title ++ " - Table of Contents Structure Chapter List"
    content := "TABLE OF CONTENTS CHAPTER LIST OUTLINE STRUCTURE:\n" ++ sliceText pages 0 tocEnd
    page_start := 1
    page_end := tocEnd
    timestamp := ts
    storage_url := surl
    file_type := "toc" }

/-- The full chunk list `sync_data` indexes for one parsed PDF: the page
chunks in emission order, then the ToC chunk. -/
def chunkDocument (docId uid title ft surl ts : String) (pages : List String) :
    List SyncChunk :=
  pageChunksGo docId uid title ft surl ts pages (rangeStep pages.length 3) 0 ++
    [tocChunk docId uid title surl ts pages]

/-- Window start pages whose slice survives the `chunk_text.strip()` test. -/
def emittedStarts (pages : List String) : List Nat :=
  (rangeStep pages.length 3).filter
    (fun s => !strBlank (sliceText pages s (min (s + 5) pages.length)))

/-! ### `BookshelfRAG.extract_text` (src/chatbot_enhanced.py, lines 36-77)

A raw byte payload is modelled by the three views the code can take of it:
the PyPDF2 parse (`none` when `PdfReader` raises, otherwise one entry per
page, where a page entry of `none` means `page.extract_text()` raises),
the UTF-8 decoding (`none` when it raises `UnicodeDecodeError`), and the
permissive latin-1 decoding (which never fails). -/

/-- The three decodings of one byte payload. -/
structure FileBytes where
  pdfParse : Option (List (Option String))
  utf8 : Option String
  latin1 : String
deriving DecidableEq, Repr

/-- The PDF dispatch test `file_type == "pdf" or file_type == "application/pdf"` (Python compares to the two strings pdf and application/pdf). -/
def isPdfType (ft : String) : Bool :=
  ft == "pdf" || ft == "application/pdf"

/-- The page loop of `extract_text`: appends each non-empty page text plus a
newline; a page whose extraction raises makes the enclosing handler return
the empty string, discarding the accumulator. -/
def extractPagesLoop : List (Option String) → String → String
  | [], acc => acc
  | some s :: rest, acc =>
      extractPagesLoop rest (if s != "" then acc ++ s ++ "\n" else acc)
  | none :: _, _ => ""

/-- `BookshelfRAG.extract_text(file_bytes, file_type, start_page, max_pages)`.
`maxPages = none` models Python `max_pages=None`; note the truthiness test
`if max_pages:` under which `some 0` also leaves `end_page = total_pages`. -/
def extract_text (b : FileBytes) (ft : String) (startPage : Nat)
    (maxPages : Option Nat) : String :=
  if isPdfType ft then
    match b.pdfParse with
    | none => ""
    | some pages =>
      let total := pages.length
      let endPage :=
        match maxPages with
        | some m => if m == 0 then total else min (startPage + m) total
        | none => total
      extractPagesLoop ((pages.drop startPage).take (endPage - startPage)) ""
  else
    match b.utf8 with
    | some s => s
    | none => b.latin1

/-- Reference description of the claimed per-page isolation, following the
claim wording: every page that extracts contributes its text (skipping
empty ones), a failed page contributes nothing. -/
def specPerPageConcat (pages : List (Option String)) : String :=
  pages.foldl
    (fun acc o =>
      match o with
      | some s => if s != "" then acc ++ s ++ "\n" else acc
      | none => acc) ""

/-! ### Item processing in `sync_data` (lines 65-205)

`BItem` carries one bookshelf item as `sync_data` sees it: metadata plus
the decoded views of its `content` field and of the payload downloaded
from `storageUrl`. -/

/-- One bookshelf item during sync. -/
structure BItem where
  fileType : String
  title : String
  contentText : Option String
  storageUrl : Option String
  downloadOk : Bool
  pdfPages : Option (List String)
  bytesText : String
deriving DecidableEq, Repr

/-- `BookshelfRAG.extract_text(file_bytes, file_type, max_pages=100)` applied
to the downloaded payload, as used at line 87: only the first 100 pages,
each non-empty page text followed by a newline. -/
def extractFirst (pages : List String) (maxP : Nat) : String :=
  (pages.take maxP).foldl (fun acc p => if p != "" then acc ++ p ++ "\n" else acc) ""

/-- Text obtained from the item storage URL (branch B, lines 80-89): for a
PDF file type the bounded page extraction, otherwise the text decoding. -/
def fetchedText (it : BItem) : String :=
  if it.downloadOk then
    if isPdfType it.fileType then
      match it.pdfPages with
      | some pgs => extractFirst pgs 100
      | none => ""
    else it.bytesText
  else ""

/-- `text_content` of `sync_data` (lines 73-89): the decoded `content` field
when the file type is `text`, else the downloaded text. -/
def text_content (it : BItem) : String :=
  let a := if it.fileType == "text" then (it.contentText.getD "") else ""
  if a != "" then a
  else if it.storageUrl.isSome then fetchedText it else ""

/-- `is_pdf` of `sync_data` (lines 106-109). -/
def is_pdf (it : BItem) : Bool :=
  it.fileType == "application/pdf" || it.fileType == "pdf" ||
    (match it.storageUrl with
     | some u => strEndsWith (strLower u) ".pdf"
     | none => false)

/-- The chunks `sync_data` indexes for one item (lines 96-205): nothing when
`text_content` is empty; the PDF chunking loop when `is_pdf` holds, a URL is
present, the re-download succeeds and the PDF parses; otherwise one single
chunk spanning page 1. -/
def syncItemChunks (uid docId ts : String) (it : BItem) : List SyncChunk :=
  if text_content it != "" then
    if is_pdf it && it.storageUrl.isSome then
      if it.downloadOk then
        match it.pdfPages with
        | some pgs =>
            chunkDocument docId uid it.title it.fileType (it.storageUrl.getD "") ts pgs
        | none => []
      else []
    else
      [{ user_id := uid
         book_id := docId
         chunk_id := docId ++ "_chunk_0"
         title := it.title
         content := text_content it
         page_start := 1
         page_end := 1
         timestamp := ts
         storage_url := it.storageUrl.getD ""
         file_type := it.fileType }]
  else []

/-! ### `OpenSearchManager` (src/backend/opensearch_client.py)

The backend index is a list of stored chunk documents.  The lexical
relevance of the `match` clauses and the backend base score are abstract
parameters: the theorems below hold for every choice, which is exactly the
tenant-isolation point (no scoring can leak another owner). -/

/-- One stored chunk document, with the indexed fields. -/
structure IndexedDoc where
  chunk_id : String
  book_id : String
  title : String
  content : String
  page_start : Nat
  page_end : Nat
  file_type : String
  storage_url : String
  user_id : String
deriving DecidableEq, Repr

/-- One search hit as returned to the caller (lines 109-124). -/
structure OSResult where
  id : String
  score : Int
  title : String
  content : String
  full_content : String
  source : String
deriving DecidableEq, Repr

/-- The two `must` clauses of the boolean query (lines 88-91): the content
must match the query and `user_id.keyword` must equal the caller id. -/
def osMustFilter (matchContent : String → String → Bool) (query uid : String)
    (idx : List IndexedDoc) : List IndexedDoc :=
  idx.filter (fun d => matchContent query d.content && (d.user_id == uid))

/-- Document score: backend base score plus the two `should` boosts
(`file_type.keyword = "toc"` with boost 3, title matching the phrase
"Table of Contents" with boost 2, lines 92-95). -/
def osScore (baseScore : IndexedDoc → Int) (matchToCTitle : String → Bool)
    (d : IndexedDoc) : Int :=
  baseScore d + (if d.file_type == "toc" then 3 else 0) +
    (if matchToCTitle d.title then 2 else 0)

/-- The hits of `OpenSearchManager.search`: must-filtered documents, sorted
by descending score, truncated to `size = top_k`. -/
def osHits (matchContent : String → String → Bool) (baseScore : IndexedDoc → Int)
    (matchToCTitle : String → Bool) (query uid : String) (topK : Nat)
    (idx : List IndexedDoc) : List IndexedDoc :=
  (sortDesc (osScore baseScore matchToCTitle) (osMustFilter matchContent query uid idx)).take topK

/-- The result records built from the hits (lines 109-124): highlighted
snippet when available, else the first 200 characters of the content. -/
def osSearchResults (matchContent : String → String → Bool)
    (baseScore : IndexedDoc → Int) (matchToCTitle : String → Bool)
    (highlightOf : IndexedDoc → Option String) (query uid : String) (topK : Nat)
    (idx : List IndexedDoc) : List OSResult :=
  (osHits matchContent baseScore matchToCTitle query uid topK idx).map (fun d =>
    { id := d.chunk_id
      score := osScore baseScore matchToCTitle d
      title := d.title
      content := (highlightOf d).getD (d.content.take 200)
      full_content := d.content
      source := d.title })

/-- Outcome of the low-level `client.delete` call: acknowledged, 404
`NotFoundError`, or a transport error (both of the latter raise). -/
inductive DeleteOutcome where
  | acked
  | notFound
  | transportError
deriving DecidableEq, Repr

/-- The backend delete call: raises `NotFoundError` when the id is absent. -/
def clientDelete (docs : List String) (transportOk : Bool) (docId : String) :
    DeleteOutcome :=
  if !transportOk then .transportError
  else if docs.contains docId then .acked
  else .notFound

/-- `OpenSearchManager.delete_document` (lines 74-80): `try` the delete and
return `True`; any raised exception is caught and yields `False`. -/
def delete_document (docs : List String) (transportOk : Bool) (docId : String) :
    Bool :=
  match clientDelete docs transportOk docId with
  | .acked => true
  | .notFound => false
  | .transportError => false

/-! ### `BookshelfRAG.search` (src/chatbot_enhanced.py, lines 100-220)

The extraction status dictionary values. -/

/-- Extraction status values (the strings `running`, `completed`, `failed`). -/
inductive ExtractStatus where
  | running
  | completed
  | failed
deriving DecidableEq, Repr

/-- One bookshelf item as the fallback scan sees it.  `bytes` is the decoded
`content` field or the downloaded payload, `none` when both fail. -/
structure LItem where
  id : Option String
  storageUrl : Option String
  title : String
  fileType : String
  bytes : Option FileBytes
deriving Repr

/-- Result of the per-item hybrid-extraction step. -/
structure ExtractStep where
  text : String
  status : Option ExtractStatus
  spawned : Bool
deriving Repr

/-- The hybrid-extraction step for one item (lines 146-186): when there is
no cached text and no running worker, extract the first 50 pages, cache
them, and spawn a background worker exactly when the substring `pdf` occurs in the
lowercased file type or title. -/
def processItem (cache : String) (status : Option ExtractStatus) (it : LItem) :
    ExtractStep :=
  if cache == "" && !(status == some ExtractStatus.running) then
     match it.bytes with
     | none => { text := cache, status := status, spawned := false }
     | some b =>
       let initial := extract_text b it.fileType 0 (some 50)
       if strContains (strLower it.fileType) "pdf" || strContains (strLower it.title) "pdf" then
         { text := initial, status := some .running, spawned := true }
       else
         { text := initial, status := status, spawned := false }
  else { text := cache, status := status, spawned := false }

/-- One scored fallback chunk (lines 209-214). -/
structure LegacyChunk where
  score : Nat
  content : String
  source : String
  page : String
deriving DecidableEq, Repr

/-- `set(query.lower().split())`: distinct lowercase whitespace tokens. -/
def queryTerms (q : String) : List String :=
  (((strLower q).split Char.isWhitespace).filter (fun t => t != "")).dedup

/-- The 800-character windows with stride 650 (`chunk_size - overlap`). -/
def chunkWindows (text : String) : List String :=
  (rangeStep text.length 650).map (fun i => String.mk ((text.data.drop i).take 800))

/-- Number of distinct query terms occurring in the lowercased window. -/
def scoreChunk (terms : List String) (chunk : String) : Nat :=
  terms.countP (fun t => strContains (strLower chunk) t)

/-- The scored windows of one item text (lines 194-214): windows shorter
than 50 characters or scoring 0 are dropped; a running extraction appends
the still-reading note. -/
def itemChunks (terms : List String) (title : String) (running : Bool)
    (text : String) : List LegacyChunk :=
  (chunkWindows text).filterMap (fun ch =>
    if ch.length < 50 then none
    else
      let sc := scoreChunk terms ch
      if sc > 0 then
        some { score := sc
               content := ch ++ (if running then " [Note: Still reading rest of book...]" else "")
               source := title
               page := "N/A" }
      else none)

/-- A Python optional string reduced to `none` when falsy. -/
def pyTruthy (a : Option String) : Option String :=
  match a with
  | some s => if s != "" then some s else none
  | none => none

/-- Python `item.get(id) or item.get(storageUrl)` with falsy values skipped. -/
def pyOr (a b : Option String) : Option String :=
  match pyTruthy a with
  | some s => some s
  | none => pyTruthy b

/-- The legacy per-item loop (lines 141-215), threading the text cache and
status maps through the items. -/
def legacyScanGo (terms : List String) : List LItem → (String → String) →
    (String → Option ExtractStatus) → List LegacyChunk
  | [], _, _ => []
  | it :: rest, cache, status =>
    match pyOr it.id it.storageUrl with
    | none => legacyScanGo terms rest cache status
    | some iid =>
      let step := processItem (cache iid) (status iid) it
      let cache' := fun k => if k == iid then step.text else cache k
      let status' := fun k => if k == iid then step.status else status k
      if step.text == "" then legacyScanGo terms rest cache' status'
      else
        itemChunks terms it.title (step.status == some ExtractStatus.running) step.text ++
          legacyScanGo terms rest cache' status'

/-- The whole legacy fallback (lines 126-220): early empty return, per-item
scan, stable sort by descending score, truncation to `top_k`. -/
def legacyScan (query : String) (items : List LItem) (topK : Nat)
    (cache : String → String) (status : String → Option ExtractStatus) :
    List LegacyChunk :=
  if query == "" || items.isEmpty then []
  else
    (sortDesc (fun c => (c.score : Int)) (legacyScanGo (queryTerms query) items cache status)).take topK

/-- Which path produced the results of one `BookshelfRAG.search` call. -/
inductive RagOutcome where
  | fromIndex (rs : List OSResult)
  | fromFallback (rs : List LegacyChunk)
deriving DecidableEq, Repr

/-- `BookshelfRAG.search` (lines 100-220): try OpenSearch when available, a
client exists and a truthy user id was supplied; return its results
verbatim when non-empty; otherwise run the legacy fallback.  `indexResp`
is the outcome of `client.search` (`Except.error` models a raised
exception). -/
def ragSearch (osAvailable clientPresent : Bool) (userId : Option String)
    (indexResp : Except Unit (List OSResult)) (query : String)
    (items : List LItem) (topK : Nat) (cache : String → String)
    (status : String → Option ExtractStatus) : RagOutcome :=
  if osAvailable && clientPresent &&
      (match userId with | some u => u != "" | none => false) then
    match indexResp with
    | .ok rs =>
        if rs != [] then .fromIndex rs
        else .fromFallback (legacyScan query items topK cache status)
    | .error _ => .fromFallback (legacyScan query items topK cache status)
  else .fromFallback (legacyScan query items topK cache status)

/-! ### Concurrency model of the check-then-spawn decision (lines 146-186)

Several `BookshelfRAG.search` calls can process the same cold document
concurrently.  For one fixed document id, each calling thread first
observes the shared cache and status (`if not text and status != running`),
then — in a later, separate step — writes the cache, sets the status to
the running value and starts a worker thread.  A worker eventually finishes and
marks the status completed.  The class-level dictionaries carry no
lock, so the observation and the spawn are distinct atomic steps. -/

/-- Program counter of one search thread with respect to the fixed id. -/
inductive TPC where
  | start
  | passed
  | done
deriving DecidableEq, Repr

/-- Shared state for one document id plus the search-thread counters. -/
structure CState where
  hasText : Bool
  status : Option ExtractStatus
  workers : Nat
  threads : List TPC
deriving DecidableEq, Repr

/-- Interleaved small-step semantics of the check-then-spawn logic. -/
inductive CStep : CState → CState → Prop
  | observe (s : CState) (i : Nat)
      (hpc : s.threads.get? i = some TPC.start)
      (htext : s.hasText = false)
      (hstat : s.status ≠ some ExtractStatus.running) :
      CStep s { s with threads := s.threads.set i TPC.passed }
  | observeBusy (s : CState) (i : Nat)
      (hpc : s.threads.get? i = some TPC.start)
      (hbusy : s.hasText = true ∨ s.status = some ExtractStatus.running) :
      CStep s { s with threads := s.threads.set i TPC.done }
  | spawnWorker (s : CState) (i : Nat)
      (hpc : s.threads.get? i = some TPC.passed) :
      CStep s { hasText := true
                status := some ExtractStatus.running
                workers := s.workers + 1
                threads := s.threads.set i TPC.done }
  | finishWorker (s : CState)
      (hw : 0 < s.workers) :
      CStep s { s with workers := s.workers - 1, status := some ExtractStatus.completed }

/-- A state is reachable when a finite interleaving of steps leads to it. -/
def CReach : CState → CState → Prop :=
  Relation.ReflTransGen CStep

/-- Two search calls racing on the same cold document id. -/
def c4init : CState :=
  { hasText := false, status := none, workers := 0, threads := [TPC.start, TPC.start] }

/-- The state reached after both threads pass the check and both spawn. -/
def c4bad : CState :=
  { hasText := true, status := some ExtractStatus.running, workers := 2,
    threads := [TPC.done, TPC.done] }

/-! ## Theorems -/

/-! ### Sorting helpers -/

theorem mem_insertDesc {α : Type} (key : α → Int) (x a : α) (l : List α) :
    a ∈ insertDesc key x l ↔ a = x ∨ a ∈ l := by
  induction l with
  | nil => simp [insertDesc]
  | cons y ys ih =>
    by_cases h : key y < key x
    · simp [insertDesc, h]
    · simp [insertDesc, h, ih]
      tauto

theorem mem_sortDesc {α : Type} (key : α → Int) (a : α) (l : List α) :
    a ∈ sortDesc key l ↔ a ∈ l := by
  induction l with
  | nil => simp [sortDesc]
  | cons x xs ih => simp [sortDesc, mem_insertDesc, ih]

/-! ### C1: tenant isolation of `OpenSearchManager.search` -/

/-- C1 tenant isolation: for every content-match semantics, every backend
base score, every title-match semantics, every query, owner id and result
size, every hit of `OpenSearchManager.search` is owned by the caller: the
owner filter is a `must` clause, so however well another owner matches,
their chunks never appear. -/
theorem C1_tenant_isolation
    (matchContent : String → String → Bool) (baseScore : IndexedDoc → Int)
    (matchToCTitle : String → Bool) (query uid : String) (topK : Nat)
    (idx : List IndexedDoc) (d : IndexedDoc)
    (hd : d ∈ osHits matchContent baseScore matchToCTitle query uid topK idx) :
    d.user_id = uid := by
  unfold osHits at hd
  have h1 := List.take_subset topK _ hd
  have h2 := (mem_sortDesc _ _ _).mp h1
  have h3 := List.mem_filter.mp h2
  have h4 := h3.2
  simp only [Bool.and_eq_true, beq_iff_eq] at h4
  exact h4.2

/-- Witness for C1: a concrete two-owner index, where the other owner also
matches; the hit is owned by the caller. -/
theorem C1_tenant_isolation_witness :
    (⟨"c1", "b1", "T", "cats", 1, 2, "pdf", "u", "alice"⟩ : IndexedDoc) ∈
      osHits (fun _ c => c == "cats") (fun _ => 0) (fun _ => false) "cats" "alice" 5
        [⟨"c1", "b1", "T", "cats", 1, 2, "pdf", "u", "alice"⟩,
         ⟨"c2", "b2", "T", "cats", 1, 2, "pdf", "u", "bob"⟩] ∧
    (⟨"c1", "b1", "T", "cats", 1, 2, "pdf", "u", "alice"⟩ : IndexedDoc).user_id = "alice" :=
  ⟨by decide,
   C1_tenant_isolation (fun _ c => c == "cats") (fun _ => 0) (fun _ => false)
     "cats" "alice" 5
     [⟨"c1", "b1", "T", "cats", 1, 2, "pdf", "u", "alice"⟩,
      ⟨"c2", "b2", "T", "cats", 1, 2, "pdf", "u", "bob"⟩]
     ⟨"c1", "b1", "T", "cats", 1, 2, "pdf", "u", "alice"⟩ (by decide)⟩

/-! ### C2: index-hit short circuit in `BookshelfRAG.search` -/

/-- C2 index-hit short circuit: when OpenSearch is available, a client
exists and a truthy owner id is supplied, a non-empty index response is
returned verbatim as the index outcome, and a fallback outcome can only
arise from an index exception or an empty hit list — the two paths are
never blended in one call. -/
theorem C2_index_short_circuit (u : String) (rs : List OSResult)
    (indexResp : Except Unit (List OSResult)) (query : String)
    (items : List LItem) (topK : Nat) (cache : String → String)
    (status : String → Option ExtractStatus) (hu : u ≠ "") :
    (indexResp = Except.ok rs → rs ≠ [] →
      ragSearch true true (some u) indexResp query items topK cache status =
        RagOutcome.fromIndex rs) ∧
    (∀ frs, ragSearch true true (some u) indexResp query items topK cache status =
        RagOutcome.fromFallback frs →
      indexResp = Except.error () ∨ indexResp = Except.ok []) := by
  have hg : (true && true &&
      (match some u with | some v => v != "" | none => false)) = true := by
    simp [hu]
  constructor
  · intro hresp hne
    subst hresp
    simp [ragSearch, hg, hne, hu]
  · intro frs hfb
    match indexResp with
    | .error e => exact Or.inl rfl
    | .ok xs =>
      by_cases hxs : xs = []
      · exact Or.inr (by rw [hxs])
      · simp [ragSearch, hu, hxs] at hfb

/-- Witness for C2: a concrete call with one index hit returns that hit
verbatim as the index outcome. -/
theorem C2_index_short_circuit_witness :
    ragSearch true true (some "u")
        (Except.ok [{ id := "c1", score := 1, title := "T", content := "sn",
                      full_content := "f", source := "T" }])
        "q" [] 5 (fun _ => "") (fun _ => none) =
      RagOutcome.fromIndex
        [{ id := "c1", score := 1, title := "T", content := "sn",
           full_content := "f", source := "T" }] :=
  (C2_index_short_circuit "u"
      [{ id := "c1", score := 1, title := "T", content := "sn",
         full_content := "f", source := "T" }]
      (Except.ok [{ id := "c1", score := 1, title := "T", content := "sn",
                    full_content := "f", source := "T" }])
      "q" [] 5 (fun _ => "") (fun _ => none) (by decide)).1 rfl (by decide)

/-! ### C3: deterministic chunk identity in `sync_data` -/

theorem pageChunksGo_ids (docId uid title ft surl ts : String)
    (pages : List String) (starts : List Nat) (num : Nat) :
    (pageChunksGo docId uid title ft surl ts pages starts num).map SyncChunk.chunk_id =
      (List.range' num
        (starts.filter
          (fun s => !strBlank (sliceText pages s (min (s + 5) pages.length)))).length).map
        (fun n => docId ++ "_chunk_" ++ toString n) := by
  induction starts generalizing num with
  | nil => simp [pageChunksGo]
  | cons s rest ih =>
    by_cases h : (!strBlank (sliceText pages s (min (s + 5) pages.length))) = true
    · simp [pageChunksGo, h, List.range'_succ, ih]
    · simp [pageChunksGo, h, ih]

/-- C3 deterministic chunk identity: the chunk-id list `sync_data` produces
is the canonical list `docId_chunk_0 … docId_chunk_(k-1), docId_toc`
determined only by the document id and the extracted page texts; in
particular chunking the same document again — even with different title,
owner, file type, storage URL or timestamp metadata — yields exactly the
same chunk ids, so re-indexing is an idempotent upsert. -/
theorem C3_chunk_ids_deterministic (docId u1 t1 ft1 s1 ts1 u2 t2 ft2 s2 ts2 : String)
    (pages : List String) :
    (chunkDocument docId u1 t1 ft1 s1 ts1 pages).map SyncChunk.chunk_id =
      (List.range (emittedStarts pages).length).map
        (fun n => docId ++ "_chunk_" ++ toString n) ++ [docId ++ "_toc"] ∧
    (chunkDocument docId u1 t1 ft1 s1 ts1 pages).map SyncChunk.chunk_id =
      (chunkDocument docId u2 t2 ft2 s2 ts2 pages).map SyncChunk.chunk_id := by
  have hform : ∀ u t ft su ts,
      (chunkDocument docId u t ft su ts pages).map SyncChunk.chunk_id =
        (List.range (emittedStarts pages).length).map
          (fun n => docId ++ "_chunk_" ++ toString n) ++ [docId ++ "_toc"] := by
    intro u t ft su ts
    unfold chunkDocument emittedStarts
    rw [List.map_append, pageChunksGo_ids, List.range_eq_range']
    simp [tocChunk]
  exact ⟨hform u1 t1 ft1 s1 ts1, (hform u1 t1 ft1 s1 ts1).trans (hform u2 t2 ft2 s2 ts2).symm⟩

/-! ### C4: the at-most-one-worker invariant fails under interleaving -/

/-- C4 two concurrent workers are reachable: starting from a cold document
with two racing `BookshelfRAG.search` threads, both threads can observe
`no cached text and status not running` before either spawns, after which
both mark the status running and start a worker — reaching a state with
two active background workers for the same document id.  This contradicts
the claimed at-most-one-worker invariant, even though every spawn did
follow an observation and did set the status before starting. -/
theorem C4_two_workers_reachable : CReach c4init c4bad ∧ c4bad.workers = 2 := by
  refine ⟨?_, rfl⟩
  have t1 : CStep c4init
      { hasText := false, status := none, workers := 0,
        threads := [TPC.passed, TPC.start] } :=
    CStep.observe c4init 0 (by decide) rfl (by decide)
  have t2 : CStep
      { hasText := false, status := none, workers := 0,
        threads := [TPC.passed, TPC.start] }
      { hasText := false, status := none, workers := 0,
        threads := [TPC.passed, TPC.passed] } :=
    CStep.observe _ 1 (by decide) rfl (by decide)
  have t3 : CStep
      { hasText := false, status := none, workers := 0,
        threads := [TPC.passed, TPC.passed] }
      { hasText := true, status := some ExtractStatus.running, workers := 1,
        threads := [TPC.done, TPC.passed] } :=
    CStep.spawnWorker _ 0 (by decide)
  have t4 : CStep
      { hasText := true, status := some ExtractStatus.running, workers := 1,
        threads := [TPC.done, TPC.passed] } c4bad :=
    CStep.spawnWorker _ 1 (by decide)
  exact Relation.ReflTransGen.head t1 (Relation.ReflTransGen.head t2
    (Relation.ReflTransGen.head t3 (Relation.ReflTransGen.head t4
      Relation.ReflTransGen.refl)))

/-! ### C5: chunk coverage -/

/-- C5 counterexample: a six-page document whose first five pages extract
to empty text.  The first window (pages 1-5) is dropped by the
`chunk_text.strip()` test, so the only page chunk covers pages 4-6 and
page 1 is covered by no non-ToC chunk — the claimed gap-free coverage of
`[1, P]` fails. -/
theorem C5_coverage_cex :
    ¬ ∃ c ∈ pageChunksGo "d" "u" "t" "pdf" "s" "ts" ["", "", "", "", "", "x"]
        (rangeStep 6 3) 0, c.page_start ≤ 1 ∧ 1 ≤ c.page_end := by
  decide

theorem pageChunksGo_covers (docId uid title ft surl ts : String)
    (pages : List String) (starts : List Nat) (s : Nat)
    (hemit : (!strBlank (sliceText pages s (min (s + 5) pages.length))) = true) :
    ∀ num, s ∈ starts →
      ∃ c ∈ pageChunksGo docId uid title ft surl ts pages starts num,
        c.page_start = s + 1 ∧ c.page_end = min (s + 5) pages.length := by
  induction starts with
  | nil => intro num hs; simp at hs
  | cons a rest ih =>
    intro num hs
    rcases List.mem_cons.mp hs with rfl | hmem
    · simp only [pageChunksGo, hemit, if_true]
      exact ⟨_, List.mem_cons_self _ _, rfl, rfl⟩
    · by_cases ha : (!strBlank (sliceText pages a (min (a + 5) pages.length))) = true
      · obtain ⟨c, hc, hps, hpe⟩ := ih (num + 1) hmem
        refine ⟨c, ?_, hps, hpe⟩
        simp only [pageChunksGo, ha, if_true]
        exact List.mem_cons_of_mem _ hc
      · obtain ⟨c, hc, hps, hpe⟩ := ih num hmem
        refine ⟨c, ?_, hps, hpe⟩
        simpa only [pageChunksGo, ha, if_false, Bool.false_eq_true] using hc

/-- C5 amended chunk coverage: provided every sliding window has non-blank
slice text (so no window is dropped by the `chunk_text.strip()` test), the
inclusive page ranges of the non-ToC chunks cover every page of `[1, P]`
with no gaps; without that proviso a fully blank window leaves its
non-overlapped pages uncovered. -/
theorem C5_coverage_amended (docId uid title ft surl ts : String)
    (pages : List String) (p : Nat)
    (hall : ∀ s ∈ rangeStep pages.length 3,
      (!strBlank (sliceText pages s (min (s + 5) pages.length))) = true)
    (hp1 : 1 ≤ p) (hp2 : p ≤ pages.length) :
    ∃ c ∈ pageChunksGo docId uid title ft surl ts pages
        (rangeStep pages.length 3) 0,
      c.page_start ≤ p ∧ p ≤ c.page_end := by
  have hP1 : 1 ≤ pages.length := le_trans hp1 hp2
  -- the window that starts at the largest multiple of the stride below p
  have hn : (p - 1) / 3 < (pages.length + 2) / 3 := by
    have e1 : pages.length + 2 = (pages.length - 1) + 3 := by omega
    rw [e1, Nat.add_div_right _ (by norm_num)]
    exact Nat.lt_succ_of_le (Nat.div_le_div_right (by omega))
  have hsmem : (p - 1) / 3 * 3 ∈ rangeStep pages.length 3 :=
    List.mem_map.mpr ⟨(p - 1) / 3, List.mem_range.mpr hn, rfl⟩
  obtain ⟨c, hc, hps, hpe⟩ :=
    pageChunksGo_covers docId uid title ft surl ts pages
      (rangeStep pages.length 3) ((p - 1) / 3 * 3) (hall _ hsmem) 0 hsmem
  refine ⟨c, hc, ?_, ?_⟩
  · have := Nat.div_mul_le_self (p - 1) 3
    omega
  · have hmod := Nat.div_add_mod (p - 1) 3
    have hlt : (p - 1) % 3 < 3 := Nat.mod_lt _ (by norm_num)
    rw [hpe]
    exact Nat.le_min.mpr ⟨by omega, hp2⟩

/-- Witness for C5: a four-page document with non-blank pages; page 2 is
covered by a produced page chunk. -/
theorem C5_coverage_amended_witness :
    ∃ c ∈ pageChunksGo "d" "u" "t" "pdf" "s" "ts" ["a", "b", "c", "e"]
        (rangeStep 4 3) 0, c.page_start ≤ 2 ∧ 2 ≤ c.page_end :=
  C5_coverage_amended "d" "u" "t" "pdf" "s" "ts" ["a", "b", "c", "e"] 2
    (by decide) (by decide) (by decide)

/-! ### C6: chunk page-range invariant -/

/-- Every start produced by `range(0, P, 3)` is below `P`. -/
theorem rangeStep_lt (P s : Nat) (hs : s ∈ rangeStep P 3) : s < P := by
  obtain ⟨n, hn, rfl⟩ := List.mem_map.mp hs
  have hn' := List.mem_range.mp hn
  have h1 : (n + 1) * 3 ≤ (P + 2) / 3 * 3 := Nat.mul_le_mul_right 3 (by omega)
  have h2 : (P + 2) / 3 * 3 ≤ P + 2 := Nat.div_mul_le_self (P + 2) 3
  omega

/-- Every emitted page chunk records the window of one of its starts. -/
theorem pageChunksGo_mem_shape (docId uid title ft surl ts : String)
    (pages : List String) (starts : List Nat) :
    ∀ num c, c ∈ pageChunksGo docId uid title ft surl ts pages starts num →
      ∃ s ∈ starts, c.page_start = s + 1 ∧ c.page_end = min (s + 5) pages.length := by
  induction starts with
  | nil => intro num c hc; simp [pageChunksGo] at hc
  | cons a rest ih =>
    intro num c hc
    by_cases ha : (!strBlank (sliceText pages a (min (a + 5) pages.length))) = true
    · simp only [pageChunksGo, ha, if_true] at hc
      rcases List.mem_cons.mp hc with rfl | hmem
      · exact ⟨a, List.mem_cons_self _ _, rfl, rfl⟩
      · obtain ⟨s, hs, h1, h2⟩ := ih (num + 1) c hmem
        exact ⟨s, List.mem_cons_of_mem _ hs, h1, h2⟩
    · simp only [pageChunksGo, ha, if_false, Bool.false_eq_true] at hc
      obtain ⟨s, hs, h1, h2⟩ := ih num c hc
      exact ⟨s, List.mem_cons_of_mem _ hs, h1, h2⟩

/-- C6 counterexample: a bookshelf item whose `content` field supplies the
text (file type `text`) while its storage URL ends in `.pdf` and resolves
to a zero-page PDF.  `sync_data` then runs the PDF chunking with
`total_pages = 0` and emits exactly the ToC chunk with `page_start = 1`
and `page_end = 0`, violating `pageStart ≤ pageEnd`. -/
theorem C6_page_range_cex :
    ∃ c ∈ syncItemChunks "u" "d" "ts"
        { fileType := "text", title := "T", contentText := some "hello",
          storageUrl := some "x.pdf", downloadOk := true,
          pdfPages := some [], bytesText := "" },
      ¬ c.page_start ≤ c.page_end := by
  decide

/-- C6 amended page-range invariant: every chunk the chunking policy
produces has `1 ≤ pageStart` and `pageEnd ≤ totalPages`, and whenever
`totalPages ≥ 1` also `pageStart ≤ pageEnd`; for `totalPages = 0` the only
possible chunk is the ToC chunk with the degenerate range
`pageStart = 1 > pageEnd = 0` (reachable only when the document text came
from an inline content field), and on the plain PDF path a zero-page
document short-circuits to no chunks at all. -/
theorem C6_page_range_amended (docId uid title ft surl ts : String)
    (pages : List String) (c : SyncChunk)
    (hc : c ∈ chunkDocument docId uid title ft surl ts pages) :
    1 ≤ c.page_start ∧ c.page_end ≤ pages.length ∧
      (1 ≤ pages.length → c.page_start ≤ c.page_end) := by
  unfold chunkDocument at hc
  rcases List.mem_append.mp hc with hpage | htoc
  · obtain ⟨s, hs, h1, h2⟩ :=
      pageChunksGo_mem_shape docId uid title ft surl ts pages
        (rangeStep pages.length 3) 0 c hpage
    have hsP := rangeStep_lt pages.length s hs
    refine ⟨by omega, ?_, fun _ => ?_⟩
    · rw [h2]; exact min_le_right _ _
    · rw [h1, h2]
      exact Nat.le_min.mpr ⟨by omega, by omega⟩
  · have hceq : c = tocChunk docId uid title surl ts pages := by
      simpa using htoc
    subst hceq
    show 1 ≤ 1 ∧ min 15 pages.length ≤ pages.length ∧
      (1 ≤ pages.length → 1 ≤ min 15 pages.length)
    exact ⟨le_refl 1, min_le_right _ _, fun hP => Nat.le_min.mpr ⟨by omega, hP⟩⟩

/-- Witness for C6: a one-page document; both produced chunks satisfy the
amended invariant (shown here for the ToC chunk). -/
theorem C6_page_range_amended_witness :
    tocChunk "d" "u" "t" "s" "ts" ["a"] ∈ chunkDocument "d" "u" "t" "pdf" "s" "ts" ["a"] ∧
      (1 ≤ (tocChunk "d" "u" "t" "s" "ts" ["a"]).page_start ∧
        (tocChunk "d" "u" "t" "s" "ts" ["a"]).page_end ≤ (["a"] : List String).length ∧
        (1 ≤ (["a"] : List String).length →
          (tocChunk "d" "u" "t" "s" "ts" ["a"]).page_start ≤
            (tocChunk "d" "u" "t" "s" "ts" ["a"]).page_end)) :=
  ⟨by decide,
   C6_page_range_amended "d" "u" "t" "pdf" "s" "ts" ["a"]
     (tocChunk "d" "u" "t" "s" "ts" ["a"]) (by decide)⟩

/-! ### C7: per-page extraction failure isolation -/

/-- C7 counterexample: a three-page PDF whose middle page raises inside
`page.extract_text()`.  The claim says the other pages are still returned
(`"A\nB\n"`); the code catches the exception at the whole-call level and
returns the empty string, discarding page A as well. -/
theorem C7_page_failure_cex :
    extract_text ⟨some [some "A", none, some "B"], none, ""⟩ "pdf" 0 none = "" ∧
      extract_text ⟨some [some "A", none, some "B"], none, ""⟩ "pdf" 0 none ≠ "A\nB\n" := by
  constructor
  · rfl
  · decide

theorem extractPagesLoop_clean (pages : List (Option String))
    (hclean : ∀ o ∈ pages, o.isSome) :
    ∀ acc, extractPagesLoop pages acc =
      pages.foldl
        (fun acc o =>
          match o with
          | some s => if s != "" then acc ++ s ++ "\n" else acc
          | none => acc) acc := by
  induction pages with
  | nil => intro acc; rfl
  | cons o rest ih =>
    intro acc
    match o with
    | some s =>
      simp only [extractPagesLoop, List.foldl_cons]
      exact ih (fun x hx => hclean x (List.mem_cons_of_mem _ hx)) _
    | none =>
      have := hclean none (List.mem_cons_self _ _)
      simp at this

theorem extractPagesLoop_aborts (pages : List (Option String))
    (hfail : none ∈ pages) : ∀ acc, extractPagesLoop pages acc = "" := by
  induction pages with
  | nil => intro acc; simp at hfail
  | cons o rest ih =>
    intro acc
    match o with
    | some s =>
      have hmem : none ∈ rest := by
        rcases List.mem_cons.mp hfail with h | h
        · exact absurd h (by simp)
        · exact h
      simp only [extractPagesLoop]
      exact ih hmem _
    | none => rfl

/-- C7 amended failure isolation: a page that extracts to empty text
contributes nothing while every other page in the range is still returned;
but a page whose extraction raises makes the whole call return the empty
string, discarding the text of the other pages; and the call itself never raises
— a byte stream that cannot be parsed as a PDF at all also returns the
empty string instead of an `ExtractionError`. -/
theorem C7_page_failure_amended (pgs : List (Option String)) (u : Option String)
    (l : String) :
    ((∀ o ∈ pgs, o.isSome) →
      extract_text ⟨some pgs, u, l⟩ "pdf" 0 none = specPerPageConcat pgs) ∧
    (none ∈ pgs → extract_text ⟨some pgs, u, l⟩ "pdf" 0 none = "") ∧
    extract_text ⟨none, u, l⟩ "pdf" 0 none = "" := by
  refine ⟨fun hclean => ?_, fun hfail => ?_, rfl⟩
  · show extractPagesLoop ((pgs.drop 0).take (pgs.length - 0)) "" = specPerPageConcat pgs
    rw [List.drop_zero, Nat.sub_zero, List.take_length]
    exact extractPagesLoop_clean pgs hclean ""
  · show extractPagesLoop ((pgs.drop 0).take (pgs.length - 0)) "" = ""
    rw [List.drop_zero, Nat.sub_zero, List.take_length]
    exact extractPagesLoop_aborts pgs hfail ""

/-- Witness for C7: a clean three-page PDF with an empty middle page keeps
the two other pages; a parse failure returns the empty string. -/
theorem C7_page_failure_amended_witness :
    extract_text ⟨some [some "A", some "", some "B"], none, ""⟩ "pdf" 0 none = "A\nB\n" ∧
      extract_text ⟨none, none, "raw"⟩ "pdf" 0 none = "" :=
  ⟨((C7_page_failure_amended [some "A", some "", some "B"] none "").1
      (by decide)).trans (by decide),
   (C7_page_failure_amended [] none "raw").2.2⟩

/-! ### C8: delete semantics of `OpenSearchManager.delete_document` -/

/-- C8 counterexample: deleting an id that is not in the index, with the
transport healthy, returns `False` — the backend delete raises
`NotFoundError`, which the blanket handler turns into `False` like any
transport error, so not-found is not treated as success. -/
theorem C8_delete_cex :
    delete_document [] true "x" = false ∧ clientDelete [] true "x" = DeleteOutcome.notFound := by
  decide

/-- C8 amended delete semantics: `delete_document` never raises to its
caller — every raised backend exception is caught — and it returns `true`
exactly when the transport is healthy and the id was present; both a
missing id and a transport error yield `false`. -/
theorem C8_delete_amended (docs : List String) (transportOk : Bool) (docId : String) :
    delete_document docs transportOk docId = (transportOk && docs.contains docId) := by
  unfold delete_document clientDelete
  match transportOk with
  | false => rfl
  | true =>
    cases h : docs.contains docId with
    | true => rfl
    | false => rfl

/-! ### C9: which documents get a background worker -/

/-- C9 counterexample: an item with file type `text` whose title is
`notes.pdf` gets a background extraction worker spawned, although it is
not a PDF-type document — the spawn test looks for the substring `pdf` in
the lowercased file type or title, not at the PDF type itself. -/
theorem C9_background_cex :
    (processItem "" none
        { id := some "i1", storageUrl := none, title := "notes.pdf",
          fileType := "text", bytes := some ⟨none, some "hello", "hello"⟩ }).spawned = true ∧
      isPdfType "text" = false := by
  decide

/-- C9 amended backgrounding condition: in the fallback path a background
worker is spawned for an item exactly when there is no cached text, no
running worker, the bytes were obtained, and the substring `pdf` occurs in
the lowercased file type or in the lowercased title; so PDF-type documents
are always backgrounded, but so is any non-PDF document whose title
mentions pdf. -/
theorem C9_background_amended (cache : String) (status : Option ExtractStatus)
    (it : LItem) :
    (processItem cache status it).spawned =
      ((cache == "") && !(status == some ExtractStatus.running) && it.bytes.isSome &&
        (strContains (strLower it.fileType) "pdf" || strContains (strLower it.title) "pdf")) := by
  unfold processItem
  cases hc : (cache == "") with
  | false => simp [hc]
  | true =>
    cases hsr : (status == some ExtractStatus.running) with
    | true => simp [hc, hsr]
    | false =>
      match hb : it.bytes with
      | none => simp [hc, hsr, hb]
      | some b =>
        by_cases hs : (strContains (strLower it.fileType) "pdf" ||
            strContains (strLower it.title) "pdf") = true
        · simp [hc, hsr, hb, hs]
        · simp only [Bool.not_eq_true] at hs
          simp [hc, hsr, hb, hs]

/-! ### C10: `max_pages = 0` means no limit -/

/-- C10 zero limit is no limit: because the code tests `if max_pages:` for
truthiness, passing `max_pages = 0` for a PDF leaves `end_page` at the
total page count and extracts every page from `start_page` onward, exactly
as passing no limit at all — not the empty page range. -/
theorem C10_max_pages_zero :
    (∀ (b : FileBytes) (startPage : Nat),
      extract_text b "pdf" startPage (some 0) = extract_text b "pdf" startPage none ∧
      extract_text b "application/pdf" startPage (some 0) =
        extract_text b "application/pdf" startPage none) ∧
    extract_text ⟨some [some "p1", some "p2"], none, ""⟩ "pdf" 0 (some 0) = "p1\np2\n" := by
  constructor
  · intro b startPage
    obtain ⟨parse, u8, l1⟩ := b
    cases parse <;> exact ⟨rfl, rfl⟩
  · rfl
